import Mathlib

/-!
Verification development for the HoopChartsAPI shot-chart service
(`src/app.py`).  The Python source is shallowly embedded: Python floats
become exact rationals (ℚ), the pandas dataframe of shot records becomes a
list of `ShotRecord`, the matplotlib/pyplot global state becomes an explicit
`PltState` threaded through the operations, and fallible Python code
(uncaught `TypeError` / `ZeroDivisionError`) returns `Except`.
-/

set_option maxHeartbeats 1600000

namespace HoopCharts

/-- A matplotlib color specification as this program uses it: either a
named color string or an RGB triple of rationals (Python float components
embedded as ℚ). -/
inductive PyColor where
  | named (s : String)
  | rgb (r g b : ℚ)
deriving DecidableEq

/-- Models `matplotlib.colors.to_rgb`, restricted to the named colors this
program passes it ("Red", "Green", "White", "black", in any letter case
matplotlib accepts).  An unrecognized name raises `ValueError` in
matplotlib (here: `none`); an RGB triple resolves to itself exactly when
every component lies in [0, 1], and raises `ValueError` (here: `none`)
otherwise. -/
def to_rgb : PyColor → Option (ℚ × ℚ × ℚ)
  | PyColor.named s =>
      if s = "Red" ∨ s = "red" then some (1, 0, 0)
      else if s = "Green" ∨ s = "green" then some (0, 128/255, 0)
      else if s = "White" ∨ s = "white" then some (1, 1, 1)
      else if s = "Black" ∨ s = "black" then some (0, 0, 0)
      else none
  | PyColor.rgb r g b =>
      if 0 ≤ r ∧ r ≤ 1 ∧ 0 ≤ g ∧ g ≤ 1 ∧ 0 ≤ b ∧ b ≤ 1 then
        some (r, g, b)
      else none

instance {ε α : Type} [DecidableEq ε] [DecidableEq α] : DecidableEq (Except ε α) := fun x y =>
  match x, y with
  | Except.ok a, Except.ok b =>
      if h : a = b then isTrue (by rw [h]) else isFalse (by simp [h])
  | Except.error a, Except.error b =>
      if h : a = b then isTrue (by rw [h]) else isFalse (by simp [h])
  | Except.ok _, Except.error _ => isFalse (by simp)
  | Except.error _, Except.ok _ => isFalse (by simp)

/-- Python `colorsys.rgb_to_hls` over exact rationals.  The `% 1.0` on the
hue becomes `Int.fract`.  The saturation denominator (`sumc` when
`l <= 0.5`, else `2 - sumc`) can vanish for out-of-range inputs, in which
case Python raises `ZeroDivisionError`; that is the `.error` branch.  The
divisions by `rangec` are guarded by the `minc == maxc` test, as in
Python. -/
def rgb_to_hls (r g b : ℚ) : Except String (ℚ × ℚ × ℚ) :=
  let maxc := max r (max g b)
  let minc := min r (min g b)
  let sumc := maxc + minc
  let rangec := maxc - minc
  let l := sumc / 2
  if minc = maxc then Except.ok (0, l, 0)
  else
    let sden := if l ≤ 1/2 then sumc else 2 - sumc
    if sden = 0 then Except.error "ZeroDivisionError"
    else
      let s := rangec / sden
      let rc := (maxc - r) / rangec
      let gc := (maxc - g) / rangec
      let bc := (maxc - b) / rangec
      let h :=
        if r = maxc then bc - gc
        else if g = maxc then 2 + rc - bc
        else 4 + gc - rc
      Except.ok (Int.fract (h / 6), l, s)

/-- Python `colorsys._v`: the piecewise-linear hue interpolation helper of
`hls_to_rgb`; `hue % 1.0` becomes `Int.fract hue`. -/
def _v (m1 m2 hue : ℚ) : ℚ :=
  let hue' := Int.fract hue
  if hue' < 1/6 then m1 + (m2 - m1) * hue' * 6
  else if hue' < 1/2 then m2
  else if hue' < 2/3 then m1 + (m2 - m1) * (2/3 - hue') * 6
  else m1

/-- Python `colorsys.hls_to_rgb` over exact rationals (no division occurs,
so it is total). -/
def hls_to_rgb (h l s : ℚ) : ℚ × ℚ × ℚ :=
  if s = 0 then (l, l, l)
  else
    let m2 := if l ≤ 1/2 then l * (1 + s) else l + s - l * s
    let m1 := 2 * l - m2
    (_v m1 m2 (h + 1/3), _v m1 m2 h, _v m1 m2 (h - 1/3))

/-- `lighten_color` from `src/app.py` (lines 293-303).  `mc.to_rgb` is
attempted; on `ValueError` the input itself is kept as `color_rgb`
(the `except ValueError` fallback).  The subsequent
`colorsys.rgb_to_hls(*color_rgb)` raises an uncaught `TypeError` when
`color_rgb` is still a string, and can raise an uncaught
`ZeroDivisionError` inside the conversion; both become `.error`. -/
def lighten_color (color_name : PyColor) (amount : ℚ) : Except String (ℚ × ℚ × ℚ) :=
  let color_rgb : PyColor :=
    match to_rgb color_name with
    | some (r, g, b) => PyColor.rgb r g b
    | none => color_name
  match color_rgb with
  | PyColor.named _ => Except.error "TypeError"
  | PyColor.rgb r g b =>
      match rgb_to_hls r g b with
      | Except.error e => Except.error e
      | Except.ok (h, l, s) =>
          Except.ok (hls_to_rgb h (1 - amount * (1 - l)) s)

/-! Helper lemmas for `Int.fract` on explicit ranges, and for evaluating
`_v` once the fractional part of its hue argument is known. -/

lemma fract_self (q : ℚ) (h0 : 0 ≤ q) (h1 : q < 1) : Int.fract q = q :=
  Int.fract_eq_self.mpr ⟨h0, h1⟩

lemma fract_up (q : ℚ) (h0 : -1 ≤ q) (h1 : q < 0) : Int.fract q = q + 1 := by
  have h2 : Int.fract ((q + 1) + ((-1 : ℤ) : ℚ)) = Int.fract (q + 1) :=
    Int.fract_add_int _ _
  have h3 : ((q + 1) + ((-1 : ℤ) : ℚ)) = q := by push_cast; ring
  rw [h3] at h2
  rw [h2, fract_self _ (by linarith) (by linarith)]

lemma fract_down (q : ℚ) (h0 : 1 ≤ q) (h1 : q < 2) : Int.fract q = q - 1 := by
  have h2 : Int.fract ((q - 1) + ((1 : ℤ) : ℚ)) = Int.fract (q - 1) :=
    Int.fract_add_int _ _
  have h3 : ((q - 1) + ((1 : ℤ) : ℚ)) = q := by push_cast; ring
  rw [h3] at h2
  rw [h2, fract_self _ (by linarith) (by linarith)]

lemma v_low (m1 m2 x y : ℚ) (hy : Int.fract x = y) (h2 : y < 1/6) :
    _v m1 m2 x = m1 + (m2 - m1) * y * 6 := by
  simp only [_v, hy]
  rw [if_pos h2]

lemma v_m2 (m1 m2 x y : ℚ) (hy : Int.fract x = y) (h1 : 1/6 ≤ y) (h2 : y < 1/2) :
    _v m1 m2 x = m2 := by
  simp only [_v, hy]
  rw [if_neg (not_lt.mpr h1), if_pos h2]

lemma v_mid (m1 m2 x y : ℚ) (hy : Int.fract x = y) (h1 : 1/2 ≤ y) (h2 : y < 2/3) :
    _v m1 m2 x = m1 + (m2 - m1) * (2/3 - y) * 6 := by
  simp only [_v, hy]
  rw [if_neg (by linarith), if_neg (not_lt.mpr h1), if_pos h2]

lemma v_m1 (m1 m2 x y : ℚ) (hy : Int.fract x = y) (h1 : 2/3 ≤ y) :
    _v m1 m2 x = m1 := by
  simp only [_v, hy]
  rw [if_neg (by linarith), if_neg (by linarith), if_neg (not_lt.mpr h1)]

/-- With lightness `(M+m)/2` and the saturation `rgb_to_hls` produces for
extremes `m < M` in [0,1], `hls_to_rgb` interpolates between `m1 = m` and
`m2 = M`. -/
lemma hls_expand (h M m : ℚ) (hm0 : 0 ≤ m) (hlt : m < M) (hM1 : M ≤ 1) :
    hls_to_rgb h ((M + m) / 2)
        ((M - m) / (if (M + m) / 2 ≤ 1/2 then M + m else 2 - (M + m))) =
      (_v m M (h + 1/3), _v m M h, _v m M (h - 1/3)) := by
  have hMpos : 0 < M := lt_of_le_of_lt hm0 hlt
  have hsum : 0 < M + m := by linarith
  have hsum2 : M + m < 2 := by linarith
  by_cases hl : (M + m) / 2 ≤ 1/2
  · rw [if_pos hl]
    have hs : ¬ ((M - m) / (M + m) = 0) :=
      ne_of_gt (div_pos (by linarith) hsum)
    simp only [hls_to_rgb, if_neg hs, if_pos hl]
    have hm2 : (M + m) / 2 * (1 + (M - m) / (M + m)) = M := by
      field_simp
      ring
    rw [hm2]
    have hm1 : 2 * ((M + m) / 2) - M = m := by ring
    rw [hm1]
  · rw [if_neg hl]
    have hs : ¬ ((M - m) / (2 - (M + m)) = 0) :=
      ne_of_gt (div_pos (by linarith) (by linarith))
    simp only [hls_to_rgb, if_neg hs, if_neg hl]
    have hd : 2 - (M + m) ≠ 0 := ne_of_gt (by linarith)
    have hm2 : (M + m) / 2 + (M - m) / (2 - (M + m)) -
        (M + m) / 2 * ((M - m) / (2 - (M + m))) = M := by
      field_simp [hd]
      ring
    rw [hm2]
    have hm1 : 2 * ((M + m) / 2) - M = m := by ring
    rw [hm1]

/-- With zero saturation, `hls_to_rgb` is the gray triple. -/
lemma hls_to_rgb_zero_s (h l : ℚ) : hls_to_rgb h l 0 = (l, l, l) := by
  simp [hls_to_rgb]

/-- Core of the round-trip: when the channel extremes differ, converting
RGB to HLS succeeds and converting back recovers the original triple. -/
lemma roundtrip_core (r g b m M : ℚ)
    (hM : M = max r (max g b)) (hm : m = min r (min g b))
    (hr0 : 0 ≤ r) (hg0 : 0 ≤ g) (hb0 : 0 ≤ b)
    (hm0 : 0 ≤ m) (hM1 : M ≤ 1) (hlt : m < M) :
    ∃ h l s, rgb_to_hls r g b = Except.ok (h, l, s) ∧
      hls_to_rgb h l s = (r, g, b) := by
  have hrM : r ≤ M := by rw [hM]; exact le_max_left _ _
  have hgM : g ≤ M := by rw [hM]; exact le_trans (le_max_left _ _) (le_max_right _ _)
  have hbM : b ≤ M := by rw [hM]; exact le_trans (le_max_right _ _) (le_max_right _ _)
  have hmr : m ≤ r := by rw [hm]; exact min_le_left _ _
  have hmg : m ≤ g := by rw [hm]; exact le_trans (min_le_right _ _) (min_le_left _ _)
  have hmb : m ≤ b := by rw [hm]; exact le_trans (min_le_right _ _) (min_le_right _ _)
  have hMpos : 0 < M := lt_of_le_of_lt hm0 hlt
  have hΔ : 0 < M - m := by linarith
  have hΔne : M - m ≠ 0 := ne_of_gt hΔ
  have hsden : 0 < (if (M + m) / 2 ≤ 1/2 then M + m else 2 - (M + m)) := by
    split <;> linarith
  refine ⟨Int.fract ((if r = M then (M - b)/(M - m) - (M - g)/(M - m)
        else if g = M then 2 + (M - r)/(M - m) - (M - b)/(M - m)
        else 4 + (M - g)/(M - m) - (M - r)/(M - m)) / 6),
      (M + m)/2,
      (M - m) / (if (M + m)/2 ≤ 1/2 then M + m else 2 - (M + m)), ?_, ?_⟩
  · simp only [rgb_to_hls]
    rw [← hM, ← hm]
    rw [if_neg (ne_of_lt hlt), if_neg (ne_of_gt hsden)]
  · rw [hls_expand _ M m hm0 hlt hM1]
    by_cases hrmax : r = M
    · rw [if_pos hrmax]
      have hh0 : ((M - b)/(M - m) - (M - g)/(M - m)) = (g - b)/(M - m) := by ring
      rw [hh0]
      by_cases hbg : b ≤ g
      · have hmb' : m = b := by
          rw [hm, min_eq_right hbg]
          exact min_eq_right (by linarith)
        have hq0 : 0 ≤ (g - b)/(M - m) := div_nonneg (by linarith) hΔ.le
        have hq1 : (g - b)/(M - m) ≤ 1 := (div_le_one hΔ).mpr (by linarith)
        rw [fract_self ((g - b)/(M - m)/6) (by linarith) (by linarith)]
        simp only [Prod.mk.injEq]
        refine ⟨?_, ?_, ?_⟩
        · by_cases hbd : (g - b)/(M - m)/6 < 1/6
          · rw [v_m2 m M _ ((g - b)/(M - m)/6 + 1/3)
              (fract_self _ (by linarith) (by linarith)) (by linarith) (by linarith)]
            exact hrmax.symm
          · have hbd' : (g - b)/(M - m)/6 = 1/6 :=
              le_antisymm (by linarith) (not_lt.mp hbd)
            rw [v_mid m M _ ((g - b)/(M - m)/6 + 1/3)
              (fract_self _ (by linarith) (by linarith)) (by linarith) (by linarith)]
            have hv : m + (M - m) * (2/3 - (1/6 + 1/3)) * 6 = M := by ring
            rw [hbd', hrmax]
            exact hv
        · by_cases hbd : (g - b)/(M - m)/6 < 1/6
          · rw [v_low m M _ ((g - b)/(M - m)/6)
              (fract_self _ (by linarith) (by linarith)) hbd]
            have hv : (M - m) * ((g - b)/(M - m)/6) * 6 = g - b := by
              field_simp
              ring
            linarith [hv]
          · have hbd' : (g - b)/(M - m)/6 = 1/6 :=
              le_antisymm (by linarith) (not_lt.mp hbd)
            have h6 : (g - b)/(M - m) = 1 := by linarith [hbd']
            have hgb : g - b = M - m := by
              field_simp at h6
              linarith [h6]
            rw [v_m2 m M _ ((g - b)/(M - m)/6)
              (fract_self _ (by linarith) (by linarith)) (by linarith) (by linarith)]
            linarith [hgb, hmb']
        · rw [v_m1 m M _ ((g - b)/(M - m)/6 + 2/3)
            (by rw [fract_up _ (by linarith) (by linarith)]; ring) (by linarith)]
          exact hmb'
      · have hgb : g < b := lt_of_not_le hbg
        have hmg' : m = g := by
          rw [hm, min_eq_left (le_of_lt hgb)]
          exact min_eq_right (by linarith)
        have hq0 : -1 ≤ (g - b)/(M - m) := (le_div_iff hΔ).mpr (by linarith)
        have hq1 : (g - b)/(M - m) < 0 := div_neg_of_neg_of_pos (by linarith) hΔ
        rw [fract_up ((g - b)/(M - m)/6) (by linarith) (by linarith)]
        simp only [Prod.mk.injEq]
        refine ⟨?_, ?_, ?_⟩
        · rw [v_m2 m M _ ((g - b)/(M - m)/6 + 1/3)
            (by rw [fract_down _ (by linarith) (by linarith)]; ring)
            (by linarith) (by linarith)]
          exact hrmax.symm
        · rw [v_m1 m M _ ((g - b)/(M - m)/6 + 1)
            (fract_self _ (by linarith) (by linarith)) (by linarith)]
          exact hmg'
        · rw [v_mid m M _ ((g - b)/(M - m)/6 + 2/3)
            (by rw [fract_self _ (by linarith) (by linarith)]; ring)
            (by linarith) (by linarith)]
          have hv : (M - m) * (2/3 - ((g - b)/(M - m)/6 + 2/3)) * 6 = -(g - b) := by
            field_simp
            ring
          linarith [hv]
    · rw [if_neg hrmax]
      have hrltM : r < M := lt_of_le_of_ne hrM hrmax
      by_cases hgmax : g = M
      · rw [if_pos hgmax]
        have hh0 : (2 + (M - r)/(M - m) - (M - b)/(M - m)) = 2 + (b - r)/(M - m) := by
          ring
        rw [hh0]
        have hq1 : (b - r)/(M - m) ≤ 1 := (div_le_one hΔ).mpr (by linarith)
        have hq0 : -1 < (b - r)/(M - m) := (lt_div_iff hΔ).mpr (by linarith)
        rw [fract_self ((2 + (b - r)/(M - m))/6) (by linarith) (by linarith)]
        simp only [Prod.mk.injEq]
        by_cases hbr : b < r
        · have hmb' : m = b := by
            rw [hm, min_eq_right (by linarith : b ≤ g)]
            exact min_eq_right (le_of_lt hbr)
          have hqneg : (b - r)/(M - m) < 0 := div_neg_of_neg_of_pos (by linarith) hΔ
          refine ⟨?_, ?_, ?_⟩
          · rw [v_mid m M _ ((2 + (b - r)/(M - m))/6 + 1/3)
              (fract_self _ (by linarith) (by linarith)) (by linarith) (by linarith)]
            have hv : (M - m) * (2/3 - ((2 + (b - r)/(M - m))/6 + 1/3)) * 6
                = -(b - r) := by
              field_simp
              ring
            linarith [hv]
          · rw [v_m2 m M _ ((2 + (b - r)/(M - m))/6)
              (fract_self _ (by linarith) (by linarith)) (by linarith) (by linarith)]
            exact hgmax.symm
          · rw [v_m1 m M _ ((2 + (b - r)/(M - m))/6 + 2/3)
              (by rw [fract_up _ (by linarith) (by linarith)]; ring) (by linarith)]
            exact hmb'
        · have hrb : r ≤ b := le_of_not_lt hbr
          have hmr' : m = r := by
            rw [hm, min_eq_right (by linarith : b ≤ g)]
            exact min_eq_left hrb
          have hqpos : 0 ≤ (b - r)/(M - m) := div_nonneg (by linarith) hΔ.le
          by_cases hq : (b - r)/(M - m) < 1
          · refine ⟨?_, ?_, ?_⟩
            · rw [v_m1 m M _ ((2 + (b - r)/(M - m))/6 + 1/3)
                (fract_self _ (by linarith) (by linarith)) (by linarith)]
              exact hmr'
            · rw [v_m2 m M _ ((2 + (b - r)/(M - m))/6)
                (fract_self _ (by linarith) (by linarith)) (by linarith) (by linarith)]
              exact hgmax.symm
            · rw [v_low m M _ ((2 + (b - r)/(M - m))/6 - 1/3)
                (fract_self _ (by linarith) (by linarith)) (by linarith)]
              have hv : (M - m) * ((2 + (b - r)/(M - m))/6 - 1/3) * 6 = b - r := by
                field_simp
                ring
              linarith [hv]
          · have hq1' : (b - r)/(M - m) = 1 := le_antisymm hq1 (not_lt.mp hq)
            have hbrMm : b - r = M - m := by
              have h6 := hq1'
              field_simp at h6
              linarith [h6]
            have hbM' : b = M := by linarith
            refine ⟨?_, ?_, ?_⟩
            · rw [v_m1 m M _ ((2 + (b - r)/(M - m))/6 + 1/3)
                (fract_self _ (by linarith [hq1']) (by linarith [hq1']))
                (by linarith [hq1'])]
              exact hmr'
            · rw [v_mid m M _ ((2 + (b - r)/(M - m))/6)
                (fract_self _ (by linarith) (by linarith))
                (by linarith [hq1']) (by linarith [hq1'])]
              have hv : (M - m) * (2/3 - (2 + (b - r)/(M - m))/6) * 6
                  = 2*(M - m) - (b - r) := by
                field_simp
                ring
              linarith [hv, hbrMm, hgmax.symm.le, hgM]
            · rw [v_m2 m M _ ((2 + (b - r)/(M - m))/6 - 1/3)
                (fract_self _ (by linarith [hq1']) (by linarith [hq1']))
                (by linarith [hq1']) (by linarith [hq1'])]
              exact hbM'.symm
      · rw [if_neg hgmax]
        have hgltM : g < M := lt_of_le_of_ne hgM hgmax
        have hbmax : b = M := by
          rcases max_choice r (max g b) with h | h
          · exact absurd (hM.trans h).symm hrmax
          · rcases max_choice g b with h2 | h2
            · exact absurd (hM.trans (h.trans h2)).symm hgmax
            · exact (hM.trans (h.trans h2)).symm
        have hh0 : (4 + (M - g)/(M - m) - (M - r)/(M - m)) = 4 + (r - g)/(M - m) := by
          ring
        rw [hh0]
        have hq1 : (r - g)/(M - m) < 1 := (div_lt_one hΔ).mpr (by linarith)
        have hq0 : -1 < (r - g)/(M - m) := (lt_div_iff hΔ).mpr (by linarith)
        rw [fract_self ((4 + (r - g)/(M - m))/6) (by linarith) (by linarith)]
        simp only [Prod.mk.injEq]
        by_cases hrg : r < g
        · have hmr' : m = r := by
            rw [hm, min_eq_left (by linarith : g ≤ b)]
            exact min_eq_left (le_of_lt hrg)
          have hqneg : (r - g)/(M - m) < 0 := div_neg_of_neg_of_pos (by linarith) hΔ
          refine ⟨?_, ?_, ?_⟩
          · rw [v_m1 m M _ ((4 + (r - g)/(M - m))/6 + 1/3)
              (fract_self _ (by linarith) (by linarith)) (by linarith)]
            exact hmr'
          · rw [v_mid m M _ ((4 + (r - g)/(M - m))/6)
              (fract_self _ (by linarith) (by linarith)) (by linarith) (by linarith)]
            have hv : (M - m) * (2/3 - (4 + (r - g)/(M - m))/6) * 6 = -(r - g) := by
              field_simp
              ring
            linarith [hv]
          · rw [v_m2 m M _ ((4 + (r - g)/(M - m))/6 - 1/3)
              (fract_self _ (by linarith) (by linarith)) (by linarith) (by linarith)]
            exact hbmax.symm
        · have hgr : g ≤ r := le_of_not_lt hrg
          have hmg' : m = g := by
            rw [hm, min_eq_left (by linarith : g ≤ b)]
            exact min_eq_right hgr
          have hqpos : 0 ≤ (r - g)/(M - m) := div_nonneg (by linarith) hΔ.le
          refine ⟨?_, ?_, ?_⟩
          · rw [v_low m M _ ((4 + (r - g)/(M - m))/6 - 2/3)
              (by rw [fract_down _ (by linarith) (by linarith)]; ring) (by linarith)]
            have hv : (M - m) * ((4 + (r - g)/(M - m))/6 - 2/3) * 6 = r - g := by
              field_simp
              ring
            linarith [hv]
          · rw [v_m1 m M _ ((4 + (r - g)/(M - m))/6)
              (fract_self _ (by linarith) (by linarith)) (by linarith)]
            exact hmg'
          · rw [v_m2 m M _ ((4 + (r - g)/(M - m))/6 - 1/3)
              (fract_self _ (by linarith) (by linarith)) (by linarith) (by linarith)]
            exact hbmax.symm

/-- RGB to HLS to RGB is the identity on triples with all components in
[0, 1] (over exact rationals): the conversion succeeds and converting back
recovers the input exactly. -/
theorem rgb_hls_roundtrip (r g b : ℚ) (hr0 : 0 ≤ r) (hr1 : r ≤ 1)
    (hg0 : 0 ≤ g) (hg1 : g ≤ 1) (hb0 : 0 ≤ b) (hb1 : b ≤ 1) :
    ∃ h l s, rgb_to_hls r g b = Except.ok (h, l, s) ∧
      hls_to_rgb h l s = (r, g, b) := by
  by_cases heq : min r (min g b) = max r (max g b)
  · have h1 : r ≤ max r (max g b) := le_max_left _ _
    have h2 : g ≤ max r (max g b) := le_trans (le_max_left _ _) (le_max_right _ _)
    have h3 : b ≤ max r (max g b) := le_trans (le_max_right _ _) (le_max_right _ _)
    have h4 : min r (min g b) ≤ r := min_le_left _ _
    have h5 : min r (min g b) ≤ g := le_trans (min_le_right _ _) (min_le_left _ _)
    have h6 : min r (min g b) ≤ b := le_trans (min_le_right _ _) (min_le_right _ _)
    have hr : r = max r (max g b) := le_antisymm h1 (by rw [← heq]; exact h4)
    have hg : g = max r (max g b) := le_antisymm h2 (by rw [← heq]; exact h5)
    have hb : b = max r (max g b) := le_antisymm h3 (by rw [← heq]; exact h6)
    refine ⟨0, (max r (max g b) + min r (min g b))/2, 0, ?_, ?_⟩
    · simp only [rgb_to_hls]
      rw [if_pos heq]
    · rw [hls_to_rgb_zero_s]
      have hminr : min r (min g b) = r := by rw [heq, ← hr]
      have hl : (max r (max g b) + min r (min g b))/2 = r := by
        rw [hminr, ← hr]
        ring
      have hrg : r = g := hr.trans hg.symm
      have hrb : r = b := hr.trans hb.symm
      rw [hl, ← hrg, ← hrb]
  · have hmM : min r (min g b) < max r (max g b) :=
      lt_of_le_of_ne (le_trans (min_le_left _ _) (le_max_left _ _)) heq
    exact roundtrip_core r g b (min r (min g b)) (max r (max g b)) rfl rfl
      hr0 hg0 hb0 (le_min hr0 (le_min hg0 hb0)) (max_le hr1 (max_le hg1 hb1)) hmM

/-- Whatever `to_rgb` resolves has all components in [0, 1]. -/
lemma to_rgb_mem_unit (c : PyColor) (r g b : ℚ) (h : to_rgb c = some (r, g, b)) :
    0 ≤ r ∧ r ≤ 1 ∧ 0 ≤ g ∧ g ≤ 1 ∧ 0 ≤ b ∧ b ≤ 1 := by
  cases c with
  | named s =>
      simp only [to_rgb] at h
      split_ifs at h <;>
        first
          | exact Option.noConfusion h
          | (simp only [Option.some.injEq, Prod.mk.injEq] at h
             obtain ⟨h1, h2, h3⟩ := h
             subst h1; subst h2; subst h3
             norm_num)
  | rgb r' g' b' =>
      simp only [to_rgb] at h
      split_ifs at h with hc
      · simp only [Option.some.injEq, Prod.mk.injEq] at h
        obtain ⟨h1, h2, h3⟩ := h
        subst h1; subst h2; subst h3
        exact hc

/-- When resolution succeeds, `lighten_color` converts to HLS, replaces the
lightness `l` by `1 - amount * (1 - l)`, and converts back. -/
lemma lighten_color_resolved (c : PyColor) (a r g b h l s : ℚ)
    (hres : to_rgb c = some (r, g, b))
    (hconv : rgb_to_hls r g b = Except.ok (h, l, s)) :
    lighten_color c a = Except.ok (hls_to_rgb h (1 - a * (1 - l)) s) := by
  simp only [lighten_color, hres, hconv]

/-- `hls_to_rgb` at lightness 1 is white, whatever the hue and
saturation. -/
lemma hls_to_rgb_one (h s : ℚ) : hls_to_rgb h 1 s = (1, 1, 1) := by
  by_cases hs : s = 0
  · rw [hs, hls_to_rgb_zero_s]
  · simp only [hls_to_rgb, if_neg hs]
    have hl : ¬ ((1:ℚ) ≤ 1/2) := by norm_num
    rw [if_neg hl]
    have hm2 : (1:ℚ) + s - 1 * s = 1 := by ring
    rw [hm2]
    have hm1 : (2:ℚ) * 1 - 1 = 1 := by norm_num
    rw [hm1]
    have hv : ∀ x : ℚ, _v 1 1 x = 1 := by
      intro x
      simp only [_v]
      split_ifs <;> ring
    rw [hv, hv, hv]

/-- `rgb_to_hls` succeeds whenever the sum of the channel extremes is
neither 0 nor 2 (in particular it cannot divide by zero then). -/
lemma rgb_to_hls_total (r g b : ℚ)
    (hsum0 : max r (max g b) + min r (min g b) ≠ 0)
    (hsum2 : max r (max g b) + min r (min g b) ≠ 2) :
    ∃ hls, rgb_to_hls r g b = Except.ok hls := by
  by_cases heq : min r (min g b) = max r (max g b)
  · exact ⟨_, by simp only [rgb_to_hls]; rw [if_pos heq]⟩
  · have hsden : (if (max r (max g b) + min r (min g b))/2 ≤ 1/2
        then max r (max g b) + min r (min g b)
        else 2 - (max r (max g b) + min r (min g b))) ≠ 0 := by
      split
      · exact hsum0
      · intro hc
        exact hsum2 (by linarith)
    exact ⟨_, by simp only [rgb_to_hls]; rw [if_neg heq, if_neg hsden]⟩

/-- C1 (counterexample): at the resolvable input color "Red" = (1,0,0),
`lighten_color` with `amount=0` does not return the input color — it
returns white (1,1,1) — and with `amount=1` it returns (1,0,0), whose
lightness is 1/2, not 1.  The spec has the roles of the two endpoints
swapped. -/
theorem lighten_color_amount_zero_whitens_red :
    to_rgb (PyColor.named "Red") = some (1, 0, 0) ∧
    lighten_color (PyColor.named "Red") 0 = Except.ok (1, 1, 1) ∧
    ¬ lighten_color (PyColor.named "Red") 0 = Except.ok (1, 0, 0) ∧
    lighten_color (PyColor.named "Red") 1 = Except.ok (1, 0, 0) ∧
    rgb_to_hls 1 0 0 = Except.ok (0, 1/2, 1) ∧ ¬ ((1:ℚ)/2 = 1) := by
  have h0 : lighten_color (PyColor.named "Red") 0 = Except.ok (1, 1, 1) := by
    simp only [lighten_color, to_rgb, rgb_to_hls, hls_to_rgb, _v, max_def, min_def,
      Int.fract]
    norm_num
  have h1 : lighten_color (PyColor.named "Red") 1 = Except.ok (1, 0, 0) := by
    simp only [lighten_color, to_rgb, rgb_to_hls, hls_to_rgb, _v, max_def, min_def,
      Int.fract]
    norm_num
  have hhls : rgb_to_hls 1 0 0 = Except.ok (0, 1/2, 1) := by
    simp only [rgb_to_hls, max_def, min_def, Int.fract]
    norm_num
  refine ⟨by decide, h0, ?_, h1, hhls, by norm_num⟩
  intro hc
  rw [h0] at hc
  simp only [Except.ok.injEq, Prod.mk.injEq] at hc
  exact absurd hc.2.1 (by norm_num)

/-- C1 (amended): for every resolvable input color, `amount=1` returns a
color equal to the input color exactly (the RGB-HLS round trip is exact
over ℚ), and `amount=0` returns white, whose lightness is exactly 1 (the
roles of the spec's two endpoints are swapped). -/
theorem lighten_color_amount_one_id_amount_zero_white (c : PyColor) (r g b : ℚ)
    (hres : to_rgb c = some (r, g, b)) :
    lighten_color c 1 = Except.ok (r, g, b) ∧
    lighten_color c 0 = Except.ok (1, 1, 1) ∧
    rgb_to_hls 1 1 1 = Except.ok (0, 1, 0) := by
  obtain ⟨hr0, hr1, hg0, hg1, hb0, hb1⟩ := to_rgb_mem_unit c r g b hres
  obtain ⟨h, l, s, hconv, hround⟩ := rgb_hls_roundtrip r g b hr0 hr1 hg0 hg1 hb0 hb1
  refine ⟨?_, ?_, ?_⟩
  · rw [lighten_color_resolved c 1 r g b h l s hres hconv]
    have he : 1 - 1 * (1 - l) = l := by ring
    rw [he, hround]
  · rw [lighten_color_resolved c 0 r g b h l s hres hconv]
    have he : 1 - 0 * (1 - l) = 1 := by ring
    rw [he, hls_to_rgb_one]
  · simp only [rgb_to_hls, max_def, min_def]
    norm_num

/-- Witness for the amended C1 at the concrete color "Red". -/
theorem lighten_color_amount_roles_witness :
    to_rgb (PyColor.named "Red") = some (1, 0, 0) ∧
    (lighten_color (PyColor.named "Red") 1 = Except.ok (1, 0, 0) ∧
     lighten_color (PyColor.named "Red") 0 = Except.ok (1, 1, 1) ∧
     rgb_to_hls 1 1 1 = Except.ok (0, 1, 0)) := by
  have h : to_rgb (PyColor.named "Red") = some (1, 0, 0) := by decide
  exact ⟨h, lighten_color_amount_one_id_amount_zero_white (PyColor.named "Red")
    1 0 0 h⟩

/-- C4: for every input color resolving to `(r,g,b)` whose HLS conversion
yields `(h,l,s)`, `lighten_color` returns the RGB conversion of
`(h, 1 - amount * (1 - l), s)`: hue and saturation are kept and the new
lightness is `1 - amount * (1 - l)`.  The embedding is a pure function, so
the result is deterministic in its inputs by construction. -/
theorem lighten_color_formula (c : PyColor) (a r g b h l s : ℚ)
    (hres : to_rgb c = some (r, g, b))
    (hconv : rgb_to_hls r g b = Except.ok (h, l, s)) :
    lighten_color c a = Except.ok (hls_to_rgb h (1 - a * (1 - l)) s) :=
  lighten_color_resolved c a r g b h l s hres hconv

/-- Witness for C4 at the concrete color "Red" and amount 0.8. -/
theorem lighten_color_formula_witness :
    (to_rgb (PyColor.named "Red") = some (1, 0, 0) ∧
     rgb_to_hls 1 0 0 = Except.ok (0, 1/2, 1)) ∧
    lighten_color (PyColor.named "Red") (4/5)
      = Except.ok (hls_to_rgb 0 (1 - (4/5) * (1 - 1/2)) 1) := by
  have h1 : to_rgb (PyColor.named "Red") = some (1, 0, 0) := by decide
  have h2 : rgb_to_hls 1 0 0 = Except.ok (0, 1/2, 1) := by
    simp only [rgb_to_hls, max_def, min_def, Int.fract]
    norm_num
  exact ⟨⟨h1, h2⟩, lighten_color_formula (PyColor.named "Red") (4/5) 1 0 0
    0 (1/2) 1 h1 h2⟩

/-- C6 (counterexample): the string "notacolor" fails resolution, and the
fallback then hands the string itself to the HLS conversion, which raises
an uncaught `TypeError` instead of returning a result. -/
theorem lighten_color_fallback_string_raises :
    to_rgb (PyColor.named "notacolor") = none ∧
    lighten_color (PyColor.named "notacolor") (1/2) = Except.error "TypeError" := by
  constructor <;> decide

/-- C6 (amended): when resolution fails and the input is itself an RGB
triple, the fallback uses that triple and returns a result with no error,
provided the HLS conversion does not divide by zero (its channel-extreme
sum is neither 0 nor 2 — which out-of-range fallback triples can violate).
A string input that fails resolution instead raises an uncaught
`TypeError`. -/
theorem lighten_color_fallback_triple (r g b a : ℚ)
    (hres : to_rgb (PyColor.rgb r g b) = none)
    (hsum0 : max r (max g b) + min r (min g b) ≠ 0)
    (hsum2 : max r (max g b) + min r (min g b) ≠ 2) :
    ∃ t, lighten_color (PyColor.rgb r g b) a = Except.ok t := by
  obtain ⟨⟨h, l, s⟩, hconv⟩ := rgb_to_hls_total r g b hsum0 hsum2
  refine ⟨hls_to_rgb h (1 - a * (1 - l)) s, ?_⟩
  simp only [lighten_color, hres, hconv]

/-- Witness for the amended C6 at the out-of-range triple (3/2, 0, 0). -/
theorem lighten_color_fallback_triple_witness :
    (to_rgb (PyColor.rgb (3/2) 0 0) = none ∧
     max (3/2 : ℚ) (max 0 0) + min (3/2 : ℚ) (min 0 0) ≠ 0 ∧
     max (3/2 : ℚ) (max 0 0) + min (3/2 : ℚ) (min 0 0) ≠ 2) ∧
    ∃ t, lighten_color (PyColor.rgb (3/2) 0 0) (1/2) = Except.ok t := by
  have h1 : to_rgb (PyColor.rgb (3/2) 0 0) = none := by
    simp only [to_rgb]
    norm_num
  have h2 : max (3/2 : ℚ) (max 0 0) + min (3/2 : ℚ) (min 0 0) ≠ 0 := by
    norm_num [max_def, min_def]
  have h3 : max (3/2 : ℚ) (max 0 0) + min (3/2 : ℚ) (min 0 0) ≠ 2 := by
    norm_num [max_def, min_def]
  exact ⟨⟨h1, h2, h3⟩, lighten_color_fallback_triple (3/2) 0 0 (1/2) h1 h2 h3⟩

/-! ### Court geometry, the matplotlib scene model, and the endpoint -/

/-- A matplotlib patch as `draw_court` constructs them.  `arc` stores the
constructor's width/height arguments, which are the full diameters;
`fill` records the `fill` keyword (matplotlib rectangles default to
filled, `Arc` is never filled). -/
inductive Patch where
  | rect (x y w h lw : ℚ) (color : PyColor) (fill : Bool)
  | circle (cx cy radius lw : ℚ) (color : PyColor) (fill : Bool)
  | arc (cx cy w h theta1 theta2 lw : ℚ) (color : PyColor) (linestyle : String)
deriving DecidableEq

/-- The fourteen patches `draw_court` builds (src/app.py lines 316-393), in
`court_elements` order: the black outer boundary first, its colored copy
last.  `linestyle` is "--" only for the dashed bottom free-throw arc. -/
def court_elements (color : PyColor) (lw : ℚ) : List Patch :=
  [ Patch.rect (-250) (-47.5) 500 470 lw (PyColor.named "black") false,
    Patch.circle 0 0 7.5 lw color false,
    Patch.rect (-30) (-7.5) 60 (-1) lw color true,
    Patch.rect (-80) (-47.5) 160 190 lw color false,
    Patch.rect (-60) (-47.5) 120 190 lw color false,
    Patch.arc 0 142.5 120 120 0 180 lw color "-",
    Patch.arc 0 142.5 120 120 180 0 lw color "--",
    Patch.arc 0 0 80 80 0 180 lw color "-",
    Patch.rect (-220) (-47.5) 0 140 lw color true,
    Patch.rect 220 (-47.5) 0 140 lw color true,
    Patch.arc 0 0 475 475 22 158 lw color "-",
    Patch.arc 0 422.5 120 120 180 0 lw color "-",
    Patch.arc 0 422.5 40 40 180 0 lw color "-",
    Patch.rect (-250) (-47.5) 500 470 lw color false ]

/-- One plotted scatter series with its styling, as `plt.scatter` is called
here (`edgecolors := none` when the keyword is not passed). -/
structure ScatterPlot where
  xs : List ℤ
  ys : List ℤ
  s : ℚ
  facecolors : PyColor
  edgecolors : Option PyColor
  linewidths : ℚ
  marker : String
  alpha : ℚ
deriving DecidableEq

/-- The view/content state of one matplotlib axes: accumulated patches and
scatters, explicitly set limits (as displayed (left, right) / (bottom,
top)), inversion flags for autoscaled axes, and axis visibility. -/
structure Axes where
  patches : List Patch
  scatters : List ScatterPlot
  xlim : Option (ℚ × ℚ)
  ylim : Option (ℚ × ℚ)
  xAutoInverted : Bool
  yAutoInverted : Bool
  axisOn : Bool
deriving DecidableEq

/-- A fresh axes: nothing drawn, autoscaled uninverted limits, axis shown. -/
def defaultAxes : Axes :=
  { patches := [], scatters := [], xlim := none, ylim := none,
    xAutoInverted := false, yAutoInverted := false, axisOn := true }

/-- One matplotlib figure: size, face color, and its (single) axes. -/
structure Figure where
  figsize : ℚ × ℚ
  facecolor : PyColor
  ax : Axes
deriving DecidableEq

/-- What `savefig` records for a written file: the figure content and the
save options used at src/app.py lines 287-289. -/
structure SavedFile where
  figure : Figure
  bbox_tight : Bool
  pad_inches : ℚ
  transparent : Bool
deriving DecidableEq

/-- The global pyplot state plus the output directory: the open figures
(current figure first) and the files written (most recent first). -/
structure PltState where
  figures : List Figure
  files : List (String × SavedFile)
deriving DecidableEq

/-- `plt.figure(figsize=(w, h))`: a fresh figure becomes current. -/
def plt_figure (w h : ℚ) (st : PltState) : PltState :=
  { st with figures :=
      { figsize := (w, h), facecolor := PyColor.named "white",
        ax := defaultAxes } :: st.figures }

/-- Applies an update to the current figure, if any. -/
def modifyCurrentFig (f : Figure → Figure) (st : PltState) : PltState :=
  match st.figures with
  | [] => st
  | fig :: rest => { st with figures := f fig :: rest }

/-- Applies an update to the current figure's axes (`plt.gca()`). -/
def modifyCurrentAxes (f : Axes → Axes) (st : PltState) : PltState :=
  modifyCurrentFig (fun fig => { fig with ax := f fig.ax }) st

/-- `fig.patch.set_facecolor(c)`. -/
def set_facecolor (c : PyColor) (st : PltState) : PltState :=
  modifyCurrentFig (fun fig => { fig with facecolor := c }) st

/-- `draw_court(ax, color, lw, outer_lines)` (src/app.py lines 306-399):
appends the fourteen court patches to the axes via `ax.add_patch`.  The
`outer_lines` parameter is immediately shadowed by a local variable in the
source and has no effect on behavior. -/
def draw_court (ax : Axes) (color : PyColor) (lw : ℚ) : Axes :=
  { ax with patches := ax.patches ++ court_elements color lw }

/-- `plt.scatter(...)`: appends the series to the current axes. -/
def plt_scatter (p : ScatterPlot) (st : PltState) : PltState :=
  modifyCurrentAxes (fun ax => { ax with scatters := ax.scatters ++ [p] }) st

/-- `plt.xlim(a, b)`: sets the displayed x interval, left = a, right = b. -/
def plt_xlim (a b : ℚ) (st : PltState) : PltState :=
  modifyCurrentAxes (fun ax => { ax with xlim := some (a, b) }) st

/-- `Axes.invert_xaxis()`: flips the x direction — with explicit limits it
swaps (left, right); with autoscaled limits it toggles the inversion
flag. -/
def invert_xaxis (st : PltState) : PltState :=
  modifyCurrentAxes (fun ax =>
    match ax.xlim with
    | some (a, b) => { ax with xlim := some (b, a) }
    | none => { ax with xAutoInverted := ! ax.xAutoInverted }) st

/-- `Axes.invert_yaxis()`: same for the y direction. -/
def invert_yaxis (st : PltState) : PltState :=
  modifyCurrentAxes (fun ax =>
    match ax.ylim with
    | some (a, b) => { ax with ylim := some (b, a) }
    | none => { ax with yAutoInverted := ! ax.yAutoInverted }) st

/-- `plt.axis("off")`. -/
def axis_off (st : PltState) : PltState :=
  modifyCurrentAxes (fun ax => { ax with axisOn := false }) st

/-- `plt.savefig(filename, bbox_inches="tight", pad_inches=0,
transparent=True)`: records the current figure under `filename`. -/
def savefig (filename : String) (st : PltState) : PltState :=
  match st.figures with
  | [] => st
  | fig :: _ =>
      { st with files := (filename,
          { figure := fig, bbox_tight := true, pad_inches := 0,
            transparent := true }) :: st.files }

/-- One shot record as read off the stats dataframe: `LOC_X`, `LOC_Y`,
`SHOT_MADE_FLAG`. -/
structure ShotRecord where
  loc_x : ℤ
  loc_y : ℤ
  shot_made_flag : ℤ
deriving DecidableEq

/-- `shot_dataframe[shot_dataframe.SHOT_MADE_FLAG == 1]` (line 253). -/
def made_shot (records : List ShotRecord) : List ShotRecord :=
  records.filter (fun sr => sr.shot_made_flag == 1)

/-- `shot_dataframe[shot_dataframe.SHOT_MADE_FLAG == 0]` (line 254). -/
def missed_shot (records : List ShotRecord) : List ShotRecord :=
  records.filter (fun sr => sr.shot_made_flag == 0)

/-- The parameters `generate_shot_chart` passes to the stats provider
(`shotchartdetail.ShotChartDetail`). -/
structure FetchArgs where
  player_id : String
  game_id_nullable : String
  team_id : String
  context_measure_simple : String
  season_type_all_star : String

/-- Models the external stats provider: any map from fetch parameters to
the shot records of the resulting dataframe. -/
def Fetch : Type := FetchArgs → List ShotRecord

/-- `lighten_color("Red", 0.8)`, the missed-marker face color ("Red"
resolves, so the error arm is unreachable). -/
def lightened_red : PyColor :=
  match lighten_color (PyColor.named "Red") (4/5) with
  | Except.ok (r, g, b) => PyColor.rgb r g b
  | Except.error _ => PyColor.named "unreachable"

/-- `lighten_color("Green", 0.7)`, the made-marker edge color. -/
def lightened_green : PyColor :=
  match lighten_color (PyColor.named "Green") (7/10) with
  | Except.ok (r, g, b) => PyColor.rgb r g b
  | Except.error _ => PyColor.named "unreachable"

/-- The default `color` argument of `draw_court`: `lighten_color("White", 1)`,
evaluated once at function-definition time (Python default-argument
semantics; "White" resolves, so the error arm is unreachable). -/
def draw_court_default_color : PyColor :=
  match lighten_color (PyColor.named "White") 1 with
  | Except.ok (r, g, b) => PyColor.rgb r g b
  | Except.error _ => PyColor.named "unreachable"

/-- `generate_shot_chart` (src/app.py lines 235-290) over the explicit
pyplot state: fetch the records, partition them, compose the figure (size
12x10, black facecolor, court, missed "x" scatter then made "o" scatter,
`xlim(300, -300)`, `invert_xaxis()`, `invert_yaxis()`, `axis("off")`),
save it under the line-28 template
`SHOT_CHART_FILENAME_TEMPLATE` formatted with the three ids — i.e.
`game_id_nullable ++ "_" ++ team_id ++ "_" ++ player_id ++
"_shot_chart.png"` — and return that filename. -/
def generate_shot_chart (fetch : Fetch) (player_id game_id_nullable team_id
    season_type_all_star : String) (st : PltState) : PltState × String :=
  let records := fetch
    { player_id := player_id, game_id_nullable := game_id_nullable,
      team_id := team_id, context_measure_simple := "FGA",
      season_type_all_star := season_type_all_star }
  let made := made_shot records
  let missed := missed_shot records
  let st := plt_figure 12 10 st
  let st := set_facecolor (PyColor.named "black") st
  let st := modifyCurrentAxes
    (fun ax => draw_court ax draw_court_default_color 3) st
  let st := plt_scatter
    { xs := missed.map ShotRecord.loc_x, ys := missed.map ShotRecord.loc_y,
      s := 200, facecolors := lightened_red, edgecolors := none,
      linewidths := 3, marker := "x", alpha := 1 } st
  let st := plt_scatter
    { xs := made.map ShotRecord.loc_x, ys := made.map ShotRecord.loc_y,
      s := 200, facecolors := PyColor.named "none",
      edgecolors := some lightened_green, linewidths := 5/2,
      marker := "o", alpha := 1 } st
  let st := plt_xlim 300 (-300) st
  let st := invert_xaxis st
  let st := invert_yaxis st
  let st := axis_off st
  let shot_chart_filename :=
    game_id_nullable ++ "_" ++ team_id ++ "_" ++ player_id ++ "_shot_chart.png"
  (savefig shot_chart_filename st, shot_chart_filename)

/-- The four query parameters of `/shot_chart`, each as
`request.args.get` returns it: absent (`none`) or a string. -/
structure ShotChartQuery where
  player_id : Option String
  game_id_nullable : Option String
  team_id : Option String
  season_type_all_star : Option String
deriving DecidableEq

/-- Python truthiness of a `request.args.get` result: `None` and the
empty string are falsy. -/
def truthy : Option String → Bool
  | none => false
  | some s => ! s.isEmpty

/-- An HTTP response: a plain-text body with a status code, or a file
streamed with a mimetype (`send_file`). -/
inductive Response where
  | text (body : String) (status : ℕ)
  | file (filename : String) (mimetype : String)
deriving DecidableEq

/-- `get_shot_chart` (src/app.py lines 219-232): read the four query
parameters; `if not all([...])` — any of them missing or empty — return
("Missing required parameters", 400); otherwise render and `send_file`
the PNG. -/
def get_shot_chart (fetch : Fetch) (q : ShotChartQuery) (st : PltState) :
    Response × PltState :=
  if ¬ (truthy q.player_id ∧ truthy q.game_id_nullable ∧ truthy q.team_id ∧
      truthy q.season_type_all_star) then
    (Response.text "Missing required parameters" 400, st)
  else
    let res := generate_shot_chart fetch (q.player_id.getD "")
      (q.game_id_nullable.getD "") (q.team_id.getD "")
      (q.season_type_all_star.getD "") st
    (Response.file res.2 "image/png", res.1)

/-- The purely geometric content of a patch, styling stripped; arc radii
are half the stored diameter arguments. -/
inductive Geom where
  | rect (x y w h : ℚ)
  | circle (cx cy radius : ℚ)
  | arc (cx cy rx ry theta1 theta2 : ℚ)
deriving DecidableEq

/-- Projects a patch to its geometry, dropping line width, color, fill and
line style. -/
def Patch.geom : Patch → Geom
  | Patch.rect x y w h _ _ _ => Geom.rect x y w h
  | Patch.circle cx cy radius _ _ _ => Geom.circle cx cy radius
  | Patch.arc cx cy w h t1 t2 _ _ _ => Geom.arc cx cy (w/2) (h/2) t1 t2

/-- C3: for every color and line-width input, `draw_court` adds exactly 14
patches to the axes, and their geometry is the fixed literal list of the
spec's table — boundary rectangle corner (-250,-47.5) size 500x470 (drawn
twice, black first and colored last), hoop circle radius 7.5 at the
origin, backboard, the two paint boxes, free-throw arcs radius 60 at
(0,142.5), restricted arc radius 40, zero-width corner-three rectangles at
x = ±220 of length 140, three-point arc radius 237.5 swept 22 to 158
degrees, and center-court arcs radii 60 and 20 at (0,422.5) — never
varying with the color or line width. -/
theorem draw_court_fourteen_fixed_elements (ax : Axes) (color : PyColor) (lw : ℚ) :
    (draw_court ax color lw).patches.length = ax.patches.length + 14 ∧
    (court_elements color lw).length = 14 ∧
    (court_elements color lw).map Patch.geom =
      [ Geom.rect (-250) (-47.5) 500 470,
        Geom.circle 0 0 7.5,
        Geom.rect (-30) (-7.5) 60 (-1),
        Geom.rect (-80) (-47.5) 160 190,
        Geom.rect (-60) (-47.5) 120 190,
        Geom.arc 0 142.5 60 60 0 180,
        Geom.arc 0 142.5 60 60 180 0,
        Geom.arc 0 0 40 40 0 180,
        Geom.rect (-220) (-47.5) 0 140,
        Geom.rect 220 (-47.5) 0 140,
        Geom.arc 0 0 237.5 237.5 22 158,
        Geom.arc 0 422.5 60 60 180 0,
        Geom.arc 0 422.5 20 20 180 0,
        Geom.rect (-250) (-47.5) 500 470 ] := by
  refine ⟨?_, rfl, ?_⟩
  · simp [draw_court, court_elements]
  · simp only [court_elements, List.map, Patch.geom]
    norm_num

/-- `made_shot` + `missed_shot` counting: never more than the input, with
equality exactly when every flag is 0 or 1. -/
lemma partition_count (records : List ShotRecord) :
    (made_shot records).length + (missed_shot records).length ≤ records.length ∧
    ((made_shot records).length + (missed_shot records).length = records.length ↔
      ∀ sr ∈ records, sr.shot_made_flag = 0 ∨ sr.shot_made_flag = 1) := by
  induction records with
  | nil => simp [made_shot, missed_shot]
  | cons x xs ih =>
      obtain ⟨ih1, ih2⟩ := ih
      simp only [made_shot, missed_shot, List.filter_cons] at ih1 ih2 ⊢
      by_cases h1 : x.shot_made_flag = 1
      · rw [if_pos (by simp [h1]), if_neg (by simp [h1])]
        constructor
        · simp only [List.length_cons]
          omega
        · rw [List.forall_mem_cons]
          simp only [List.length_cons]
          constructor
          · intro he
            exact ⟨Or.inr h1, ih2.mp (by omega)⟩
          · rintro ⟨_, hall⟩
            have := ih2.mpr hall
            omega
      · by_cases h0 : x.shot_made_flag = 0
        · rw [if_neg (by simp [h1]), if_pos (by simp [h0])]
          constructor
          · simp only [List.length_cons]
            omega
          · rw [List.forall_mem_cons]
            simp only [List.length_cons]
            constructor
            · intro he
              exact ⟨Or.inl h0, ih2.mp (by omega)⟩
            · rintro ⟨_, hall⟩
              have := ih2.mpr hall
              omega
        · rw [if_neg (by simp [h1]), if_neg (by simp [h0])]
          constructor
          · simp only [List.length_cons]
            omega
          · rw [List.forall_mem_cons]
            simp only [List.length_cons]
            constructor
            · intro he
              exact absurd he (by omega)
            · rintro ⟨hx, hall⟩
              rcases hx with hx | hx
              · exact absurd hx h0
              · exact absurd hx h1

/-- C5: the compositor partition puts exactly the flag-1 records in
`made_shot` and exactly the flag-0 records in `missed_shot`; any other
flag value lands in neither; `|made| + |missed| ≤ N` always, with equality
iff every record's flag is 0 or 1. -/
theorem shot_partition_spec (records : List ShotRecord) :
    (∀ sr : ShotRecord,
      sr ∈ made_shot records ↔ sr ∈ records ∧ sr.shot_made_flag = 1) ∧
    (∀ sr : ShotRecord,
      sr ∈ missed_shot records ↔ sr ∈ records ∧ sr.shot_made_flag = 0) ∧
    (made_shot records).length + (missed_shot records).length ≤ records.length ∧
    ((made_shot records).length + (missed_shot records).length = records.length ↔
      ∀ sr ∈ records, sr.shot_made_flag = 0 ∨ sr.shot_made_flag = 1) := by
  obtain ⟨hle, hiff⟩ := partition_count records
  refine ⟨?_, ?_, hle, hiff⟩
  · intro sr
    simp [made_shot, List.mem_filter]
  · intro sr
    simp [missed_shot, List.mem_filter]

/-- The current axes once `generate_shot_chart` has composed the scene. -/
def chart_axes (fetch : Fetch) (pid gid tid stype : String) (st : PltState) :
    Option Axes :=
  ((generate_shot_chart fetch pid gid tid stype st).1.figures.head?).map Figure.ax

/-- C2 (counterexample): on a concrete run (no shots) the composed view
window has xlim = (-300, 300) with left < right — the horizontal axis is
NOT mirrored: `plt.xlim(300, -300)` is immediately cancelled by
`invert_xaxis()`. -/
theorem shot_chart_view_not_mirrored :
    (chart_axes (fun _ => []) "p" "g" "t" "s"
        { figures := [], files := [] }).map Axes.xlim
      = some (some (-300, 300)) ∧ ((-300 : ℚ) < 300) := by
  exact ⟨rfl, by norm_num⟩

/-- C2 (amended): for every shot-record list and prior state, the composed
view window has xlim = (-300, 300) in normal, unmirrored orientation (the
reversed `xlim(300, -300)` is cancelled by the following `invert_xaxis()`),
and the y axis is inverted relative to its autoscaled range — both
independent of the shot coordinates. -/
theorem shot_chart_view_window (fetch : Fetch) (pid gid tid stype : String)
    (st : PltState) :
    ∃ ax : Axes, chart_axes fetch pid gid tid stype st = some ax ∧
      ax.xlim = some (-300, 300) ∧ (-300 : ℚ) < 300 ∧
      ax.yAutoInverted = true ∧ ax.ylim = none ∧ ax.axisOn = false := by
  exact ⟨_, rfl, rfl, by norm_num, rfl, rfl, rfl⟩

/-- C7 (counterexample): with all four parameters present but `player_id`
the empty string, the endpoint returns the 400 plain-text response, not
PNG bytes — presence alone does not produce a PNG. -/
theorem get_shot_chart_present_empty_param :
    (get_shot_chart (fun _ => [])
        { player_id := some "", game_id_nullable := some "g",
          team_id := some "t", season_type_all_star := some "s" }
        { figures := [], files := [] }).1
      = Response.text "Missing required parameters" 400 := by
  rfl

/-- C7 (amended): if any of the four query parameters is missing or empty
(Python falsiness), the endpoint returns status 400 with the plain-text
body, leaves the state untouched, and its output does not depend on the
fetch collaborator (nothing is fetched or rendered); when all four are
present and non-empty it returns a PNG `send_file` response. -/
theorem get_shot_chart_param_check (fetch fetch2 : Fetch) (q : ShotChartQuery)
    (st : PltState) :
    (¬ (truthy q.player_id ∧ truthy q.game_id_nullable ∧ truthy q.team_id ∧
        truthy q.season_type_all_star) →
      get_shot_chart fetch q st
          = (Response.text "Missing required parameters" 400, st) ∧
      get_shot_chart fetch q st = get_shot_chart fetch2 q st) ∧
    ((truthy q.player_id ∧ truthy q.game_id_nullable ∧ truthy q.team_id ∧
        truthy q.season_type_all_star) →
      ∃ name st2, get_shot_chart fetch q st
        = (Response.file name "image/png", st2)) := by
  constructor
  · intro h
    constructor <;> simp only [get_shot_chart, if_pos h]
  · intro h
    simp only [get_shot_chart, if_neg (not_not_intro h)]
    exact ⟨_, _, rfl⟩

/-- Witness for the amended C7: a missing parameter yields the 400 text
response and an untouched state; a fully supplied query yields a PNG
response. -/
theorem get_shot_chart_param_check_witness :
    (get_shot_chart (fun _ => [])
        { player_id := none, game_id_nullable := some "g",
          team_id := some "t", season_type_all_star := some "s" }
        { figures := [], files := [] }
      = (Response.text "Missing required parameters" 400,
         { figures := [], files := [] })) ∧
    ∃ name st2, get_shot_chart (fun _ => [])
        { player_id := some "p", game_id_nullable := some "g",
          team_id := some "t", season_type_all_star := some "s" }
        { figures := [], files := [] }
      = (Response.file name "image/png", st2) := by
  constructor
  · exact ((get_shot_chart_param_check (fun _ => []) (fun _ => []) _ _).1
      (by decide)).1
  · exact (get_shot_chart_param_check (fun _ => []) (fun _ => []) _ _).2
      (by decide)

/-- C10: a parameter that is present but equal to the empty string is
treated exactly like a missing one — the endpoint returns 400 with the
same plain-text body (the `all([...])` check is a falsiness check). -/
theorem get_shot_chart_empty_string_param_400 (fetch : Fetch)
    (q : ShotChartQuery) (st : PltState)
    (h : q.player_id = some "" ∨ q.game_id_nullable = some "" ∨
      q.team_id = some "" ∨ q.season_type_all_star = some "") :
    (get_shot_chart fetch q st).1
      = Response.text "Missing required parameters" 400 := by
  have hfalse : ¬ (truthy q.player_id ∧ truthy q.game_id_nullable ∧
      truthy q.team_id ∧ truthy q.season_type_all_star) := by
    have ht : truthy (some "") = false := by decide
    rcases h with h | h | h | h <;> rw [h] <;> simp [ht]
  simp only [get_shot_chart, if_pos hfalse]

/-- Witness for C10 with an empty `team_id`. -/
theorem get_shot_chart_empty_string_param_400_witness :
    (get_shot_chart (fun _ => [])
        { player_id := some "p", game_id_nullable := some "g",
          team_id := some "", season_type_all_star := some "s" }
        { figures := [], files := [] }).1
      = Response.text "Missing required parameters" 400 :=
  get_shot_chart_empty_string_param_400 (fun _ => []) _ _
    (Or.inr (Or.inr (Or.inl rfl)))

/-- C8: the output filename is deterministically
`{game_id_nullable}_{team_id}_{player_id}_shot_chart.png` — gameId first,
then teamId, then playerId — the file `savefig` writes carries exactly that
name, and the endpoint streams exactly that file back. -/
theorem shot_chart_filename_deterministic (fetch : Fetch)
    (pid gid tid stype : String) (st : PltState)
    (hp : truthy (some pid) = true) (hg : truthy (some gid) = true)
    (ht : truthy (some tid) = true) (hs : truthy (some stype) = true) :
    (generate_shot_chart fetch pid gid tid stype st).2
        = gid ++ "_" ++ tid ++ "_" ++ pid ++ "_shot_chart.png" ∧
    ((generate_shot_chart fetch pid gid tid stype st).1.files.head?).map
        Prod.fst
      = some (gid ++ "_" ++ tid ++ "_" ++ pid ++ "_shot_chart.png") ∧
    (get_shot_chart fetch
        { player_id := some pid, game_id_nullable := some gid,
          team_id := some tid, season_type_all_star := some stype } st).1
      = Response.file (gid ++ "_" ++ tid ++ "_" ++ pid ++ "_shot_chart.png")
          "image/png" := by
  refine ⟨rfl, rfl, ?_⟩
  have hcond : (truthy (some pid) ∧ truthy (some gid) ∧ truthy (some tid) ∧
      truthy (some stype)) := ⟨hp, hg, ht, hs⟩
  simp only [get_shot_chart, if_neg (not_not_intro hcond)]
  rfl

/-- Witness for C8 at a concrete request tuple. -/
theorem shot_chart_filename_deterministic_witness :
    ((generate_shot_chart (fun _ => []) "p" "g" "t" "s"
        { figures := [], files := [] }).2
      = "g" ++ "_" ++ "t" ++ "_" ++ "p" ++ "_shot_chart.png") ∧
    (((generate_shot_chart (fun _ => []) "p" "g" "t" "s"
        { figures := [], files := [] }).1.files.head?).map Prod.fst
      = some ("g" ++ "_" ++ "t" ++ "_" ++ "p" ++ "_shot_chart.png")) ∧
    ((get_shot_chart (fun _ => [])
        { player_id := some "p", game_id_nullable := some "g",
          team_id := some "t", season_type_all_star := some "s" }
        { figures := [], files := [] }).1
      = Response.file ("g" ++ "_" ++ "t" ++ "_" ++ "p" ++ "_shot_chart.png")
          "image/png") :=
  shot_chart_filename_deterministic (fun _ => []) "p" "g" "t" "s"
    { figures := [], files := [] } (by decide) (by decide) (by decide) (by decide)

/-- C9: rendering is deterministic and independent of the pre-existing
pyplot/file state: runs on the same (fetch, parameters) from any two
states — in particular, a first run and an immediately repeated second
run — write identical scene files (the rasterization to PNG bytes is a
fixed function of this scene), and a file is always written. -/
theorem generate_shot_chart_state_independent (fetch : Fetch)
    (pid gid tid stype : String) (st1 st2 : PltState) :
    ((generate_shot_chart fetch pid gid tid stype st1).1.files.head?).map
        Prod.snd
      = ((generate_shot_chart fetch pid gid tid stype st2).1.files.head?).map
        Prod.snd ∧
    ((generate_shot_chart fetch pid gid tid stype st1).1.files.head?).isSome
      = true := by
  exact ⟨rfl, rfl⟩

end HoopCharts
